import Mathlib

/-!
# simplecloud node agent: VM provisioning and lifecycle (`pkg/node/vm.go`)

A shallow embedding of `CreateVM`, `DeleteVM`, `GetVM` and `ListVMs`.

* Go machine integers are `Int`/`Nat` with explicit wrap-around at the
  conversions the source performs (`uint(..)`, `uint32(..)`, `int(..)`), for the
  64-bit target the descriptor declares (`x86_64`).
* The hypervisor (libvirt) and the filesystem are external systems; they are
  an explicit `World` value threaded through every operation.  Every libvirt
  call can be made to fail through the `faults` set of the world.
* Functions and tables of the repository whose source is not available
  (`DownloadFile`, `resizeImage`, `GetSSHPublicKey`, `createCloudInit`, the
  catalog tables, the node settings) are parameters.
-/

set_option autoImplicit false

namespace Simplecloud

/-! ## Machine integers -/

/-- Values of Go `int` on the 64-bit target. -/
def isInt (x : Int) : Prop := -(2 : Int) ^ 63 ≤ x ∧ x < (2 : Int) ^ 63

instance (x : Int) : Decidable (isInt x) := by unfold isInt; infer_instance

/-- Go conversion `uint(x)` of a signed integer: reduction modulo `2^64`. -/
def toUint (x : Int) : Nat := (x % (2 : Int) ^ 64).toNat

/-- Go conversion `uint32(x)`: reduction modulo `2^32`. -/
def toUint32 (x : Int) : Nat := (x % (2 : Int) ^ 32).toNat

/-- Go conversion `int(u)` of a `uint`: two's complement reinterpretation. -/
def toInt (u : Nat) : Int :=
  if u % 2 ^ 64 < 2 ^ 63 then ((u % 2 ^ 64 : Nat) : Int)
  else ((u % 2 ^ 64 : Nat) : Int) - (2 : Int) ^ 64

/-! ## Catalog and records (`pkg/types`, declarations not available) -/

/-- `types.VMFlavor`.  The fields are read through `uint(..)` conversions in
`CreateVM`, so they are signed Go integers here, like `types.VM.ID`. -/
structure VMFlavor where
  MilliCPUs : Int
  RAM : Int
  Disk : Int
  deriving DecidableEq, Repr

/-- `types.VMImage`: the fields `CreateVM` reads. -/
structure VMImage where
  Img : String
  URL : String
  Type_ : String
  deriving DecidableEq, Repr

/-- `types.VM`. -/
structure VM where
  ID : Int
  Name : String
  Image : String
  Flavor : String
  State : String
  NodeHostname : String
  NodePort : String
  VNCURL : String
  deriving DecidableEq, Repr

/-- The Go zero value `types.VM{}`. -/
def VM.zero : VM :=
  { ID := 0, Name := "", Image := "", Flavor := "", State := "",
    NodeHostname := "", NodePort := "", VNCURL := "" }

/-- The Go zero value `types.VMImage{}`, what a map read of an absent key gives. -/
def VMImage.zero : VMImage := { Img := "", URL := "", Type_ := "" }

/-- The static tables `types.VMFlavors` and `types.VMImages` (Go maps). -/
structure Catalog where
  VMFlavors : String → Option VMFlavor
  VMImages : String → Option VMImage

/-- Go map read `types.VMImages[key]`: the zero value when the key is absent. -/
def Catalog.image (c : Catalog) (key : String) : VMImage :=
  (c.VMImages key).getD VMImage.zero

/-- `types.NodeEnvInstance`: the settings `CreateVM` reads. -/
structure NodeEnv where
  LibVirtImageDir : String
  ListenHost : String
  IP : String
  ListenPort : String
  PublicSSHKeyPath : String
  PasswordHash : String
  deriving DecidableEq, Repr

/-! ## Resource translation (`CreateVM`, lines 190-198) -/

/-- The variable `cpuShares` of `CreateVM`. -/
def cpuShares (flavor : VMFlavor) : Nat :=
  if flavor.MilliCPUs > 1024 then 1024 else toUint flavor.MilliCPUs

/-- The variable `vcpus` of `CreateVM` (Go `/` truncates toward zero). -/
def vcpus (flavor : VMFlavor) : Nat :=
  if flavor.MilliCPUs > 1024 then toUint (Int.tdiv flavor.MilliCPUs 1024) else 1

/-! ## Errors -/

/-- Error numbers of failed file operations. -/
inductive Errno
  | ENOENT
  | EISDIR
  deriving DecidableEq, Repr

/-- Error classes reported by the hypervisor. -/
inductive LvErr
  | noDomain
  | operationInvalid
  | operationFailed
  | internal
  deriving DecidableEq, Repr

/-- Go `error` values the operations return. -/
inductive Error
  | new (msg : String)
  | wrap (msg : String) (cause : Error)
  | path (op : String) (name : String) (errno : Errno)
  | libvirt (e : LvErr)
  | xml
  deriving DecidableEq, Repr

/-- Outcome of a Go function returning `(T, error)`; `panic` is a run-time
panic (nil dereference, index out of range). -/
inductive Result (α : Type)
  | ok (v : α)
  | error (err : Error)
  | panic
  deriving DecidableEq, Repr

deriving instance DecidableEq for Except

/-! ## Paths (`path/filepath`, Unix) -/

/-- Path elements between separators. -/
def splitSlash : List Char → List (List Char)
  | [] => [[]]
  | c :: cs =>
    match splitSlash cs with
    | [] => [[]]
    | x :: xs => if c = '/' then [] :: x :: xs else (c :: x) :: xs

/-- One element of `filepath.Clean`: empty and `.` elements are dropped, `..`
removes the element before it, stays when there is none to remove in a relative
path, and is dropped at the root. The stack holds the kept elements, last first. -/
def cleanStep (rooted : Bool) (stack : List (List Char)) (comp : List Char) :
    List (List Char) :=
  if comp = [] ∨ comp = ['.'] then stack
  else if comp = ['.', '.'] then
    match stack with
    | [] => if rooted then [] else [comp]
    | top :: rest =>
      if top = ['.', '.'] then (if rooted then stack else comp :: stack) else rest
  else comp :: stack

/-- Elements joined by the separator. -/
def joinSlash : List (List Char) → List Char
  | [] => []
  | [x] => x
  | x :: y :: rest => x ++ '/' :: joinSlash (y :: rest)

/-- `filepath.Clean` on character lists. -/
def cleanChars (p : List Char) : List Char :=
  match p with
  | [] => ['.']
  | c :: _ =>
    let rooted := decide (c = '/')
    let kept := ((splitSlash p).foldl (cleanStep rooted) []).reverse
    if rooted then '/' :: joinSlash kept
    else if kept = [] then ['.'] else joinSlash kept

/-- `filepath.Clean`. -/
def filepathClean (p : String) : String := String.mk (cleanChars p.data)

/-- `strings.Join(elems, "/")`. -/
def joinStrings : List String → String
  | [] => ""
  | [x] => x
  | x :: y :: rest => x ++ "/" ++ joinStrings (y :: rest)

/-- `filepath.Join`: leading empty elements are skipped, the rest is joined
and cleaned; the result is empty when every element is empty. -/
def filepathJoin : List String → String
  | [] => ""
  | e :: es => if e = "" then filepathJoin es else filepathClean (joinStrings (e :: es))

/-! ## Filesystem -/

/-- A directory entry: a regular file with its bytes, or a directory. -/
inductive FNode
  | file (content : List Nat)
  | dir
  deriving DecidableEq, Repr

/-- The node-local filesystem: what each path names. -/
def FS : Type := String → Option FNode

/-- The filesystem with `path` now naming `n`. -/
def FS.write (fs : FS) (path : String) (n : FNode) : FS :=
  fun q => if q = path then some n else fs q

/-- The test `_, err := os.Stat(name); os.IsNotExist(err)`. -/
def statNotExist (fs : FS) (name : String) : Bool := (fs name).isNone

/-- `os.Open(name)`: a read handle on an existing file or directory; the
handle refers to the file, not to a copy of its bytes. -/
def osOpen (fs : FS) (name : String) : Except Error String :=
  match fs name with
  | none => .error (.path "open" name .ENOENT)
  | some _ => .ok name

/-- `os.Create(name)`: creates the file, or truncates it when it exists;
fails on a directory. -/
def osCreate (fs : FS) (name : String) : Except Error String × FS :=
  match fs name with
  | some .dir => (.error (.path "open" name .EISDIR), fs)
  | _ => (.ok name, fs.write name (.file []))

/-- `io.Copy(dst, src)` on two open files. With a directory as source the
copy (`copy_file_range` into `dst`) fails and is reported as a failed write
of `dst`. -/
def ioCopy (fs : FS) (dst src : String) : Option Error × FS :=
  match fs src with
  | some (.file content) => (none, fs.write dst (.file content))
  | some .dir => (some (.path "write" dst .EISDIR), fs)
  | none => (some (.path "read" src .ENOENT), fs)

/-- Functions of package `node` that `CreateVM` calls and whose source is
not available: each acts on the filesystem and may fail. -/
structure Helpers where
  DownloadFile : String → String → FS → Option Error × FS
  resizeImage : String → VMFlavor → FS → Option Error × FS
  GetSSHPublicKey : String → FS → Except Error String
  createCloudInit : String → String → String → String → FS → Except Error String × FS

/-! ## Domain descriptor (`libvirtxml`, the fields `CreateVM` sets) -/

structure DomainMemory where
  Value : Nat
  Unit : String
  deriving DecidableEq, Repr

structure DomainVCPU where
  Value : Nat
  deriving DecidableEq, Repr

structure DomainCPUTuneShares where
  Value : Nat
  deriving DecidableEq, Repr

structure DomainCPUTune where
  Shares : Option DomainCPUTuneShares
  deriving DecidableEq, Repr

structure DomainOSType where
  Arch : String
  Machine : String
  Type_ : String
  deriving DecidableEq, Repr

structure DomainBootDevice where
  Dev : String
  deriving DecidableEq, Repr

structure DomainOS where
  Type_ : Option DomainOSType
  BootDevices : List DomainBootDevice
  deriving DecidableEq, Repr

/-- `libvirtxml.DomainGraphicVNC`; `Port` is a Go `int`, zero when not set. -/
structure DomainGraphicVNC where
  Port : Int
  AutoPort : String
  Listen : String
  deriving DecidableEq, Repr

structure DomainGraphic where
  VNC : Option DomainGraphicVNC
  deriving DecidableEq, Repr

structure DomainDiskDriver where
  Name : String
  Type_ : String
  deriving DecidableEq, Repr

structure DomainDiskSourceFile where
  File : String
  deriving DecidableEq, Repr

structure DomainDiskSource where
  File : Option DomainDiskSourceFile
  deriving DecidableEq, Repr

structure DomainDiskTarget where
  Dev : String
  Bus : String
  deriving DecidableEq, Repr

structure DomainDisk where
  Device : String
  Driver : Option DomainDiskDriver
  Source : Option DomainDiskSource
  Target : Option DomainDiskTarget
  deriving DecidableEq, Repr

structure DomainInterfaceSourceNetwork where
  Network : String
  deriving DecidableEq, Repr

structure DomainInterfaceSource where
  Network : Option DomainInterfaceSourceNetwork
  deriving DecidableEq, Repr

structure DomainInterfaceModel where
  Type_ : String
  deriving DecidableEq, Repr

structure DomainInterface where
  Source : Option DomainInterfaceSource
  Model : Option DomainInterfaceModel
  deriving DecidableEq, Repr

structure DomainDeviceList where
  Graphics : List DomainGraphic
  Disks : List DomainDisk
  Interfaces : List DomainInterface
  deriving DecidableEq, Repr

/-- `libvirtxml.Domain`. -/
structure Domain where
  Type_ : String
  Name : String
  Memory : Option DomainMemory
  VCPU : Option DomainVCPU
  CPUTune : Option DomainCPUTune
  OS : Option DomainOS
  Devices : Option DomainDeviceList
  deriving DecidableEq, Repr

/-- The literal `domainXML` of `CreateVM` (lines 208-291). -/
def buildDomainXML (vm : VM) (flavor : VMFlavor) (destImgName cloudInitFileName : String)
    (listenHost : String) : Domain :=
  { Type_ := "kvm",
    Name := vm.Name,
    Memory := some { Value := toUint flavor.RAM, Unit := "MB" },
    VCPU := some { Value := vcpus flavor },
    CPUTune := some { Shares := some { Value := cpuShares flavor } },
    OS := some {
      Type_ := some { Arch := "x86_64", Machine := "pc", Type_ := "hvm" },
      BootDevices := [{ Dev := "hd" }] },
    Devices := some {
      Graphics := [
        { VNC := some { Port := 0, AutoPort := "yes", Listen := listenHost } }],
      Disks := [
        { Device := "disk",
          Driver := some { Name := "qemu", Type_ := "qcow2" },
          Source := some { File := some { File := destImgName } },
          Target := some { Dev := "sda", Bus := "virtio" } },
        { Device := "disk",
          Driver := some { Name := "qemu", Type_ := "raw" },
          Source := some { File := some { File := cloudInitFileName } },
          Target := some { Dev := "sdb", Bus := "virtio" } }],
      Interfaces := [
        { Source := some { Network := some { Network := "default" } },
          Model := some { Type_ := "virtio" } }] } }

/-! ## Hypervisor -/

/-- The libvirt calls of `vm.go`; a call listed in `World.faults` fails. -/
inductive Api
  | marshal
  | defineXML
  | create
  | getID
  | getXMLDesc
  | unmarshal
  | lookupByName
  | isActive
  | destroy
  | undefine
  | lookupById
  | getName
  | getState
  | listAll
  deriving DecidableEq, Repr

/-- State-changing calls to the outside, in the order they are made. -/
inductive Event
  | download (url : String) (dir : String)
  | define (name : String)
  | start (name : String)
  | destroy (name : String)
  | undefine (name : String)
  deriving DecidableEq, Repr

/-- The ID of an inactive domain, `(unsigned int)-1`: the value with which
the ID query signals that there is no ID. -/
def noID : Nat := 4294967295

/-- A domain known to the hypervisor. `persistent` means it has a stored
definition; `state` is the raw state code; `desc` is its description. -/
structure Dom where
  name : String
  id : Nat
  active : Bool
  persistent : Bool
  state : Nat
  desc : Domain
  deriving DecidableEq, Repr

/-- The node: its filesystem, the hypervisor behind `LibvirtConnection`, and
the record of state-changing calls made so far. -/
structure World where
  fs : FS
  domains : List Dom
  nextID : Nat
  nextPort : Int
  faults : List Api
  log : List Event

/-- Whether the call fails for a reason outside the domain table. -/
def World.fails (w : World) (a : Api) : Bool := decide (a ∈ w.faults)

/-- The domain with the given name. -/
def World.find (w : World) (name : String) : Option Dom :=
  w.domains.find? (fun d => decide (d.name = name))

/-- The world with one more logged event. -/
def World.record (w : World) (e : Event) : World := { w with log := w.log ++ [e] }

/-- The description of a started domain: the hypervisor fills in the port of
every VNC device that asks for automatic assignment. -/
def assignPort (x : Domain) (port : Int) : Domain :=
  { x with Devices := x.Devices.map (fun devs =>
      { devs with Graphics := devs.Graphics.map (fun g =>
          { g with VNC := g.VNC.map (fun v =>
              if v.AutoPort = "yes" then { v with Port := port } else v) }) }) }

/-- The domain a successful define stores: persistent, inactive, shut off. -/
def defined (x : Domain) : Dom :=
  { name := x.Name, id := noID, active := false, persistent := true, state := 5, desc := x }

/-- What a successful start makes of the domain called `n`: running, with
the ID and console port the hypervisor hands out. -/
def started (n : String) (id : Nat) (port : Int) (e : Dom) : Dom :=
  if e.name = n then
    { e with id := id, active := true, state := 1, desc := assignPort e.desc port }
  else e

/-- What `Destroy` makes of the domain called `n` when it has a stored
definition: inactive, shut off, without ID. -/
def stopped (n : String) (e : Dom) : Dom :=
  if e.name = n then { e with id := noID, active := false, state := 5 } else e

/-- `domainXML.Marshal()`. -/
def xmlMarshal (w : World) (x : Domain) : Except Error Domain :=
  if w.fails .marshal then .error .xml else .ok x

/-- `xml.Unmarshal([]byte(vmDesc), &vmXML)`. -/
def xmlUnmarshal (w : World) (x : Domain) : Except Error Domain :=
  if w.fails .unmarshal then .error .xml else .ok x

/-- `LibvirtConnection.DomainDefineXML`: stores a persistent, inactive domain;
a domain of the same name already there makes it fail. The handle it returns
is the domain name. -/
def DomainDefineXML (w : World) (x : Domain) : Except Error String × World :=
  let w1 := w.record (.define x.Name)
  if w.fails .defineXML then (.error (.libvirt .internal), w1)
  else
    match w.find x.Name with
    | some _ => (.error (.libvirt .operationFailed), w1)
    | none =>
      (.ok x.Name, { w1 with domains := w1.domains ++ [defined x] })

/-- `domain.Create()`: starts an inactive domain; the hypervisor assigns its
ID and console port. -/
def domainCreate (w : World) (domain : String) : Option Error × World :=
  let w1 := w.record (.start domain)
  if w.fails .create then (some (.libvirt .internal), w1)
  else
    match w.find domain with
    | none => (some (.libvirt .noDomain), w1)
    | some d =>
      if d.active then (some (.libvirt .operationInvalid), w1)
      else
        (none,
          { w1 with
            domains := w1.domains.map (started domain w.nextID w.nextPort),
            nextID := w.nextID + 1,
            nextPort := w.nextPort + 1 })

/-- `domain.GetID()`: the ID of an active domain. An inactive domain has
none: the query yields `(unsigned int)-1` and the call returns an error. -/
def domainGetID (w : World) (domain : String) : Except Error Nat :=
  if w.fails .getID then .error (.libvirt .internal)
  else
    match w.find domain with
    | none => .error (.libvirt .noDomain)
    | some d => if d.active then .ok d.id else .error (.libvirt .operationInvalid)

/-- `domain.GetXMLDesc(0)`. -/
def domainGetXMLDesc (w : World) (domain : String) : Except Error Domain :=
  if w.fails .getXMLDesc then .error (.libvirt .internal)
  else
    match w.find domain with
    | none => .error (.libvirt .noDomain)
    | some d => .ok d.desc

/-- `LibvirtConnection.LookupDomainByName`. -/
def LookupDomainByName (w : World) (name : String) : Except Error String :=
  if w.fails .lookupByName then .error (.libvirt .internal)
  else
    match w.find name with
    | none => .error (.libvirt .noDomain)
    | some d => .ok d.name

/-- `LibvirtConnection.LookupDomainById`: only active domains have an ID. -/
def LookupDomainById (w : World) (id : Nat) : Except Error String :=
  if w.fails .lookupById then .error (.libvirt .internal)
  else
    match w.domains.find? (fun d => d.active && decide (d.id = id)) with
    | none => .error (.libvirt .noDomain)
    | some d => .ok d.name

/-- `domain.IsActive()`. -/
def domainIsActive (w : World) (domain : String) : Except Error Bool :=
  if w.fails .isActive then .error (.libvirt .internal)
  else
    match w.find domain with
    | none => .error (.libvirt .noDomain)
    | some d => .ok d.active

/-- `domain.GetName()`. -/
def domainGetName (w : World) (domain : String) : Except Error String :=
  if w.fails .getName then .error (.libvirt .internal)
  else
    match w.find domain with
    | none => .error (.libvirt .noDomain)
    | some d => .ok d.name

/-- `domain.GetState()`: the raw state code. -/
def domainGetState (w : World) (domain : String) : Except Error Nat :=
  if w.fails .getState then .error (.libvirt .internal)
  else
    match w.find domain with
    | none => .error (.libvirt .noDomain)
    | some d => .ok d.state

/-- `domain.Destroy()`: stops an active domain; a domain without a stored
definition disappears with it. -/
def domainDestroy (w : World) (domain : String) : Option Error × World :=
  let w1 := w.record (.destroy domain)
  if w.fails .destroy then (some (.libvirt .internal), w1)
  else
    match w.find domain with
    | none => (some (.libvirt .noDomain), w1)
    | some d =>
      if !d.active then (some (.libvirt .operationInvalid), w1)
      else if d.persistent then
        (none, { w1 with domains := w1.domains.map (stopped domain) })
      else
        (none, { w1 with domains := w1.domains.filter (fun e => decide (e.name ≠ domain)) })

/-- `domain.Undefine()`: removes the stored definition; an inactive domain
disappears, an active one lives on without a definition. -/
def domainUndefine (w : World) (domain : String) : Option Error × World :=
  let w1 := w.record (.undefine domain)
  if w.fails .undefine then (some (.libvirt .internal), w1)
  else
    match w.find domain with
    | none => (some (.libvirt .noDomain), w1)
    | some d =>
      if !d.persistent then (some (.libvirt .operationInvalid), w1)
      else if d.active then
        (none,
          { w1 with domains := w1.domains.map (fun e =>
              if e.name = domain then { e with persistent := false } else e) })
      else
        (none, { w1 with domains := w1.domains.filter (fun e => decide (e.name ≠ domain)) })

/-- `LibvirtConnection.ListAllDomains(ACTIVE | INACTIVE)`: every domain. -/
def ListAllDomains (w : World) : Except Error (List String) :=
  if w.fails .listAll then .error (.libvirt .internal)
  else .ok (w.domains.map (fun d => d.name))

/-! ## State normalizer -/

/-- Modelled from the spec: `ParseState`, whose source is not available. The
spec (4.7) makes it a total map from the hypervisor state codes to the
canonical states NoState, Running, Blocked, Paused, ShuttingDown, Shutoff,
Crashed, PowerManagementSuspended, every unrecognised code giving NoState; the
codes are the hypervisor's (0 to 7 in that order). -/
def ParseState (state : Nat) : String :=
  match state with
  | 1 => "Running"
  | 2 => "Blocked"
  | 3 => "Paused"
  | 4 => "ShuttingDown"
  | 5 => "Shutoff"
  | 6 => "Crashed"
  | 7 => "PowerManagementSuspended"
  | _ => "NoState"

/-! ## `CreateVM` -/

/-- Lines 162-169 of `CreateVM`: the base image is downloaded when no file
of its name exists. -/
def ensureImage (cat : Catalog) (env : NodeEnv) (h : Helpers) (w : World) (vm : VM)
    (imgName : String) : Option Error × World :=
  if statNotExist w.fs imgName then
    let w1 := w.record (.download (cat.image vm.Image).URL env.LibVirtImageDir)
    match h.DownloadFile (cat.image vm.Image).URL env.LibVirtImageDir w.fs with
    | (some err, fs1) => (some err, { w1 with fs := fs1 })
    | (none, fs1) => (none, { w1 with fs := fs1 })
  else (none, w)

/-- Lines 170-185 of `CreateVM`: the base image is opened, the per-VM disk
file is created and the image copied into it. Returns `destImgName`. -/
def cloneStep (env : NodeEnv) (fs : FS) (imgName vmName : String) :
    Except Error String × FS :=
  match osOpen fs imgName with
  | .error err => (.error err, fs)
  | .ok sourceImg =>
    let destImgName := filepathJoin [env.LibVirtImageDir, vmName ++ ".qcow2"]
    match osCreate fs destImgName with
    | (.error err, fs1) => (.error err, fs1)
    | (.ok destImg, fs1) =>
      match ioCopy fs1 destImg sourceImg with
      | (some err, fs2) => (.error err, fs2)
      | (none, fs2) => (.ok destImgName, fs2)

/-- Lines 153-291 of `CreateVM`: everything up to and including the
construction of `domainXML`. -/
def prepare (cat : Catalog) (env : NodeEnv) (h : Helpers) (w : World) (vm : VM) :
    Except Error Domain × World :=
  match cat.VMFlavors vm.Flavor with
  | none => (.error (.new "flavor not found"), w)
  | some flavor =>
    let imgName := filepathJoin [env.LibVirtImageDir, (cat.image vm.Image).Img]
    if imgName = "" then (.error (.new "image not found"), w)
    else
      match ensureImage cat env h w vm imgName with
      | (some err, w1) => (.error err, w1)
      | (none, w1) =>
        match cloneStep env w1.fs imgName vm.Name with
        | (.error err, fs2) => (.error err, { w1 with fs := fs2 })
        | (.ok destImgName, fs2) =>
          match h.resizeImage destImgName flavor fs2 with
          | (some err, fs3) => (.error err, { w1 with fs := fs3 })
          | (none, fs3) =>
            let vmType := (cat.image vm.Image).Type_
            match h.GetSSHPublicKey env.PublicSSHKeyPath fs3 with
            | .error err => (.error err, { w1 with fs := fs3 })
            | .ok pubkey =>
              match h.createCloudInit vm.Name vmType pubkey env.PasswordHash fs3 with
              | (.error err, fs4) => (.error err, { w1 with fs := fs4 })
              | (.ok cloudInitFileName, fs4) =>
                (.ok (buildDomainXML vm flavor destImgName cloudInitFileName env.ListenHost),
                  { w1 with fs := fs4 })

/-- The expression `vmXML.Devices.Graphics[0].VNC.Port`; `none` is the
run-time panic of a nil dereference or an empty list. -/
def vncPortOf (vmXML : Domain) : Option Int :=
  match vmXML.Devices with
  | none => none
  | some devs =>
    match devs.Graphics with
    | [] => none
    | g :: _ =>
      match g.VNC with
      | none => none
      | some v => some v.Port

/-- Lines 292-328 of `CreateVM`: the descriptor is defined, the domain
started, and its ID and console port read back. -/
def launch (env : NodeEnv) (w : World) (vm : VM) (domainXML : Domain) : Result VM × World :=
  match xmlMarshal w domainXML with
  | .error err => (.error err, w)
  | .ok vmxml =>
    match DomainDefineXML w vmxml with
    | (.error err, w1) => (.error err, w1)
    | (.ok domain, w1) =>
      match domainCreate w1 domain with
      | (some err, w2) => (.error err, w2)
      | (none, w2) =>
        match domainGetID w2 domain with
        | .error err => (.error err, w2)
        | .ok id =>
          match domainGetXMLDesc w2 domain with
          | .error err => (.error err, w2)
          | .ok vmDesc =>
            match xmlUnmarshal w2 vmDesc with
            | .error err => (.error err, w2)
            | .ok vmXML =>
              match vncPortOf vmXML with
              | none => (.panic, w2)
              | some vncPort =>
                let vncPortString := toString vncPort
                let vncURL := "ws://" ++ env.IP ++ ":" ++ vncPortString
                (.ok { vm with
                        NodeHostname := env.IP,
                        NodePort := env.ListenPort,
                        ID := toInt id,
                        VNCURL := vncURL },
                  w2)

/-- `CreateVM`. -/
def CreateVM (cat : Catalog) (env : NodeEnv) (h : Helpers) (w : World) (vm : VM) :
    Result VM × World :=
  match prepare cat env h w vm with
  | (.error err, w1) => (.error err, w1)
  | (.ok domainXML, w1) => launch env w1 vm domainXML

/-! ## `DeleteVM`, `GetVM`, `ListVMs` -/

/-- `DeleteVM`. -/
def DeleteVM (w : World) (vm : VM) : Option Error × World :=
  match LookupDomainByName w vm.Name with
  | .error err => (some (.wrap "failed to lookup domain" err), w)
  | .ok domain =>
    match domainIsActive w domain with
    | .error err => (some (.wrap "failed to check domain status" err), w)
    | .ok active =>
      match (if active then domainDestroy w domain else (none, w)) with
      | (some err, w1) => (some (.wrap "failed to destroy domain" err), w1)
      | (none, w1) =>
        match domainUndefine w1 domain with
        | (some err, w2) => (some (.wrap "failed to undefine domain" err), w2)
        | (none, w2) => (none, w2)

/-- `GetVM`: returns the record and, second, the local `vm` the function
has filled in when it returns. -/
def GetVM.run (w : World) (vm : VM) : Except Error (VM × VM) :=
  match LookupDomainById w (toUint32 vm.ID) with
  | .error err => .error err
  | .ok domain =>
    match domainGetName w domain with
    | .error err => .error err
    | .ok name =>
      match domainGetState w domain with
      | .error err => .error err
      | .ok state =>
        .ok (VM.zero, { vm with Name := name, State := ParseState state })

/-- `GetVM`. -/
def GetVM (w : World) (vm : VM) : Except Error VM :=
  match GetVM.run w vm with
  | .error err => .error err
  | .ok (ret, _) => .ok ret

/-- The loop of `ListVMs` over the domains still to visit; `vms` is the
slice built so far. -/
def ListVMs.loop (w : World) : List String → List VM → Except Error (List VM)
  | [], vms => .ok vms
  | domain :: rest, vms =>
    match domainGetName w domain with
    | .error err => .error (.wrap "failed to get domain name" err)
    | .ok name =>
      match domainGetState w domain with
      | .error err => .error (.wrap "failed to get domain state" err)
      | .ok state =>
        match domainGetID w domain with
        | .error err => .error (.wrap "failed to get domain id" err)
        | .ok id =>
          ListVMs.loop w rest
            (vms ++ [{ VM.zero with Name := name, State := ParseState state, ID := toInt id }])

/-- `ListVMs`. -/
def ListVMs (w : World) : Except Error (List VM) :=
  match ListAllDomains w with
  | .error err => .error (.wrap "failed to list domains" err)
  | .ok domains => ListVMs.loop w domains []

/-! ## A concrete node -/

/-- A catalog with one flavor and one image. -/
def demoCatalog : Catalog :=
  { VMFlavors := fun k => if k = "small" then some ⟨512, 512, 10⟩ else none,
    VMImages := fun k =>
      if k = "alpine" then
        some { Img := "alpine.qcow2", URL := "http://example/alpine.qcow2", Type_ := "alpine" }
      else none }

/-- Node settings with a non-empty image directory. -/
def demoEnv : NodeEnv :=
  { LibVirtImageDir := "/img", ListenHost := "0.0.0.0", IP := "10.0.0.5",
    ListenPort := "6969", PublicSSHKeyPath := "/root/.ssh/id_rsa.pub", PasswordHash := "x" }

/-- Helper behaviour: the download stores the image, resizing keeps the
bytes, the key is read, the bootstrap disk is written. -/
def demoHelpers : Helpers :=
  { DownloadFile := fun _ dir fs =>
      (none, fs.write (filepathJoin [dir, "alpine.qcow2"]) (.file [1, 2, 3])),
    resizeImage := fun _ _ fs => (none, fs),
    GetSSHPublicKey := fun _ _ => .ok "ssh-rsa AAAA",
    createCloudInit := fun name _ _ _ fs =>
      (.ok ("/img/" ++ name ++ "-cloud-init.iso"),
        fs.write ("/img/" ++ name ++ "-cloud-init.iso") (.file [7])) }

/-- A filesystem with the image directory and the base image. -/
def demoFS : FS :=
  fun p =>
    if p = "/img" then some .dir
    else if p = "/img/alpine.qcow2" then some (.file [1, 2, 3])
    else none

/-- A node with no domains and no failing call. -/
def demoWorld : World :=
  { fs := demoFS, domains := [], nextID := 1, nextPort := 5900, faults := [], log := [] }

/-- The request of the spec scenario. -/
def demoVM : VM := { VM.zero with Name := "web1", Image := "alpine", Flavor := "small" }

/-- The node after `web1` has been created on it. -/
def createdWorld : World := (CreateVM demoCatalog demoEnv demoHelpers demoWorld demoVM).2

/-- The same empty node, on which every start of a domain fails. -/
def startFailsWorld : World := { demoWorld with faults := [Api.create] }

/-- The demo filesystem with a per-VM disk for `web1` already there. -/
def existingDiskFS : FS := demoFS.write "/img/web1.qcow2" (.file [9, 9])

/-- The empty node with the disk of `web1` already on it. -/
def existingDiskWorld : World := { demoWorld with fs := existingDiskFS }

/-- The empty node with nothing on its filesystem, not even the image directory. -/
def bareWorld : World := { demoWorld with fs := fun _ => none }

/-- A request for an image the catalog does not have. -/
def unknownImageVM : VM := { demoVM with Image := "nope" }

/-- The node on which `web1` runs and a second domain, `idle`, is defined
and shut off. -/
def mixedWorld : World :=
  { createdWorld with
    domains := createdWorld.domains ++
      [defined (buildDomainXML { demoVM with Name := "idle" } ⟨512, 512, 10⟩
        "/img/idle.qcow2" "/img/idle-cloud-init.iso" "0.0.0.0")] }

/-- The node on which `web1` and `web2` both run. -/
def twoRunningWorld : World :=
  (CreateVM demoCatalog demoEnv demoHelpers createdWorld { demoVM with Name := "web2" }).2

/-- The domain `web1` as the hypervisor holds it once started. -/
def web1Dom : Dom :=
  { name := "web1", id := 1, active := true, persistent := true, state := 1,
    desc := assignPort
      (buildDomainXML demoVM ⟨512, 512, 10⟩ "/img/web1.qcow2" "/img/web1-cloud-init.iso"
        "0.0.0.0") 5900 }

/-! ## Machine-integer lemmas -/

theorem toUint_of_nonneg (x : Int) (h0 : 0 ≤ x) (h1 : x < (2 : Int) ^ 64) :
    ((toUint x : Nat) : Int) = x := by
  unfold toUint
  rw [Int.emod_eq_of_lt h0 h1]
  exact Int.toNat_of_nonneg h0

theorem toUint_of_neg (x : Int) (h0 : x < 0) (h1 : -(2 : Int) ^ 64 ≤ x) :
    ((toUint x : Nat) : Int) = x + (2 : Int) ^ 64 := by
  unfold toUint
  have h2 : x % (2 : Int) ^ 64 = x + (2 : Int) ^ 64 := by
    rw [← Int.add_emod_self]
    exact Int.emod_eq_of_lt (by omega) (by omega)
  rw [h2]
  exact Int.toNat_of_nonneg (by omega)

/-! ## Resource translation -/

/-- C1, as amended: for every flavor with `0 ≤ milliCPUs ≤ 1024` the
translation of `CreateVM` yields `vcpus = 1` and a share weight numerically
equal to `milliCPUs`, and these are the values the descriptor carries. -/
theorem translate_fractional_core (flavor : VMFlavor)
    (h0 : 0 ≤ flavor.MilliCPUs) (h1 : flavor.MilliCPUs ≤ 1024) :
    vcpus flavor = 1 ∧ ((cpuShares flavor : Nat) : Int) = flavor.MilliCPUs ∧
      ∀ (vm : VM) (destImgName cloudInitFileName listenHost : String),
        (buildDomainXML vm flavor destImgName cloudInitFileName listenHost).VCPU
            = some { Value := 1 } ∧
        (buildDomainXML vm flavor destImgName cloudInitFileName listenHost).CPUTune
            = some { Shares := some { Value := flavor.MilliCPUs.toNat } } := by
  have hle : ¬ flavor.MilliCPUs > 1024 := by omega
  have hv : vcpus flavor = 1 := by simp [vcpus, hle]
  have hs : ((cpuShares flavor : Nat) : Int) = flavor.MilliCPUs := by
    simp only [cpuShares, hle, if_false]
    exact toUint_of_nonneg _ h0 (by omega)
  refine ⟨hv, hs, ?_⟩
  intro vm a b l
  have hs2 : cpuShares flavor = flavor.MilliCPUs.toNat := by omega
  simp [buildDomainXML, hv, hs2]

/-- Witness of `translate_fractional_core`: the flavor of the spec scenario. -/
theorem translate_fractional_core_witness :
    vcpus ⟨512, 512, 10⟩ = 1 ∧ ((cpuShares ⟨512, 512, 10⟩ : Nat) : Int) = 512 :=
  ⟨(translate_fractional_core ⟨512, 512, 10⟩ (by decide) (by decide)).1,
   (translate_fractional_core ⟨512, 512, 10⟩ (by decide) (by decide)).2.1⟩

/-- C1, as stated, fails: a flavor whose `MilliCPUs` is `-1` is below 1024,
and `uint(-1)` is `2^64 - 1`, not `-1`. -/
theorem cpuShares_negative_wraps :
    isInt (-1) ∧ (-1 : Int) ≤ 1024 ∧
      cpuShares ⟨-1, 512, 10⟩ = 18446744073709551615 ∧
      ((cpuShares ⟨-1, 512, 10⟩ : Nat) : Int) ≠ (⟨-1, 512, 10⟩ : VMFlavor).MilliCPUs := by
  decide

/-- C2: for every flavor with `milliCPUs > 1024` the translation of
`CreateVM` yields `vcpus = floor(milliCPUs / 1024)` and `cpuShares = 1024`,
whatever the remainder, and these are the values the descriptor carries. -/
theorem translate_whole_cores (flavor : VMFlavor)
    (hr : isInt flavor.MilliCPUs) (h : flavor.MilliCPUs > 1024) :
    ((vcpus flavor : Nat) : Int) = flavor.MilliCPUs / 1024 ∧ cpuShares flavor = 1024 ∧
      ∀ (vm : VM) (destImgName cloudInitFileName listenHost : String),
        (buildDomainXML vm flavor destImgName cloudInitFileName listenHost).VCPU
            = some { Value := (flavor.MilliCPUs / 1024).toNat } ∧
        (buildDomainXML vm flavor destImgName cloudInitFileName listenHost).CPUTune
            = some { Shares := some { Value := 1024 } } := by
  obtain ⟨_, hhi⟩ := hr
  have hs : cpuShares flavor = 1024 := by simp [cpuShares, h]
  have hv : ((vcpus flavor : Nat) : Int) = flavor.MilliCPUs / 1024 := by
    simp only [vcpus, h, if_true]
    rw [Int.tdiv_eq_ediv (by omega) (by decide)]
    exact toUint_of_nonneg _ (by omega) (by omega)
  refine ⟨hv, hs, ?_⟩
  intro vm a b l
  have hv2 : vcpus flavor = (flavor.MilliCPUs / 1024).toNat := by omega
  simp [buildDomainXML, hs, hv2]

/-- Witness of `translate_whole_cores`: 2048 and 2500 milliCPUs both give
two vCPUs of full share. -/
theorem translate_whole_cores_witness :
    (vcpus ⟨2048, 2048, 20⟩ = 2 ∧ cpuShares ⟨2048, 2048, 20⟩ = 1024) ∧
    (vcpus ⟨2500, 2048, 20⟩ = 2 ∧ cpuShares ⟨2500, 2048, 20⟩ = 1024) := by
  have a := translate_whole_cores ⟨2048, 2048, 20⟩ (by decide) (by decide)
  have b := translate_whole_cores ⟨2500, 2048, 20⟩ (by decide) (by decide)
  refine ⟨⟨?_, a.2.1⟩, ⟨?_, b.2.1⟩⟩
  · have := a.1; norm_num at this; exact_mod_cast this
  · have := b.1; norm_num at this; exact_mod_cast this

/-! ## Domain descriptor -/

/-- C10, as amended: for every VM, every flavor whose RAM is not negative,
every root disk path, bootstrap disk path and listen host, the descriptor
`CreateVM` builds carries a memory numerically equal to the flavor RAM, in
MB, the translated vCPU count and share weight, exactly two disks on distinct
target devices (root disk first, bootstrap disk second), exactly one
interface on the network `default`, and exactly one VNC graphics device with
automatic port assignment, listening on the listen host, its port unset. -/
theorem buildDomainXML_shape (vm : VM) (flavor : VMFlavor)
    (destImgName cloudInitFileName listenHost : String)
    (h0 : 0 ≤ flavor.RAM) (hr : isInt flavor.RAM) :
    let d := buildDomainXML vm flavor destImgName cloudInitFileName listenHost
    d.Name = vm.Name ∧
    (∃ mem, d.Memory = some mem ∧ ((mem.Value : Nat) : Int) = flavor.RAM ∧ mem.Unit = "MB") ∧
    d.VCPU = some { Value := vcpus flavor } ∧
    d.CPUTune = some { Shares := some { Value := cpuShares flavor } } ∧
    ∃ devs root boot nic vnc,
      d.Devices = some devs ∧
      devs.Disks = [root, boot] ∧
      root.Source = some { File := some { File := destImgName } } ∧
      boot.Source = some { File := some { File := cloudInitFileName } } ∧
      (∃ t1 t2, root.Target = some t1 ∧ boot.Target = some t2 ∧ t1.Dev ≠ t2.Dev) ∧
      devs.Interfaces = [nic] ∧
      nic.Source = some { Network := some { Network := "default" } } ∧
      devs.Graphics = [{ VNC := some vnc }] ∧
      vnc.AutoPort = "yes" ∧ vnc.Listen = listenHost ∧ vnc.Port = 0 := by
  intro d
  have hm : ((toUint flavor.RAM : Nat) : Int) = flavor.RAM :=
    toUint_of_nonneg _ h0 (by have := hr.2; omega)
  refine ⟨rfl, ⟨_, rfl, hm, rfl⟩, rfl, rfl, _, _, _, _, _, rfl, rfl, rfl, rfl,
    ⟨_, _, rfl, rfl, ?_⟩, rfl, rfl, rfl, rfl, rfl, rfl⟩
  decide

/-- Witness of `buildDomainXML_shape`: the descriptor of `web1` with the
flavor of 512 MB. -/
theorem buildDomainXML_shape_witness :
    (0 : Int) ≤ (⟨512, 512, 10⟩ : VMFlavor).RAM ∧
    ∃ mem, (buildDomainXML demoVM ⟨512, 512, 10⟩ "/img/web1.qcow2" "/img/web1-cloud-init.iso"
        "0.0.0.0").Memory = some mem ∧ ((mem.Value : Nat) : Int) = 512 ∧ mem.Unit = "MB" :=
  ⟨by decide,
   (buildDomainXML_shape demoVM ⟨512, 512, 10⟩ "/img/web1.qcow2" "/img/web1-cloud-init.iso"
      "0.0.0.0" (by decide) (by decide)).2.1⟩

/-- C10, as stated, fails: for a flavor whose `RAM` is `-1` the descriptor
carries `uint(-1)`, which is `2^64 - 1` MB, not the flavor RAM. -/
theorem buildDomainXML_negative_RAM_wraps :
    isInt (⟨512, -1, 10⟩ : VMFlavor).RAM ∧
    (buildDomainXML demoVM ⟨512, -1, 10⟩ "/img/web1.qcow2" "/img/web1-cloud-init.iso"
        "0.0.0.0").Memory = some { Value := 18446744073709551615, Unit := "MB" } ∧
    ((18446744073709551615 : Nat) : Int) ≠ (⟨512, -1, 10⟩ : VMFlavor).RAM := by
  decide

/-! ## Lookups in the domain table -/

theorem find_eq_none_of_forall (w : World) (name : String)
    (h : ∀ d ∈ w.domains, d.name ≠ name) : w.find name = none := by
  unfold World.find
  rw [List.find?_eq_none]
  intro d hd
  simpa using h d hd

theorem find_name (w : World) (name : String) (d : Dom) (h : w.find name = some d) :
    d.name = name := by
  unfold World.find at h
  have := List.find?_some h
  simpa using this

theorem find_mem (w : World) (name : String) (d : Dom) (h : w.find name = some d) :
    d ∈ w.domains := by
  unfold World.find at h
  exact List.mem_of_find?_eq_some h

theorem find_of_mem (w : World) (d : Dom) (h : d ∈ w.domains) :
    ∃ e, w.find d.name = some e := by
  cases hf : w.find d.name with
  | some e => exact ⟨e, rfl⟩
  | none =>
    unfold World.find at hf
    rw [List.find?_eq_none] at hf
    have := hf d h
    simp at this

theorem fails_eq_false (w : World) (a : Api) (h : a ∉ w.faults) : w.fails a = false := by
  simp [World.fails, h]

theorem fails_eq_true (w : World) (a : Api) (h : a ∈ w.faults) : w.fails a = true := by
  simp [World.fails, h]

/-! ## `DeleteVM` of an unknown name -/

/-- C9: for every name that matches no domain, `DeleteVM` returns the
wrapped lookup failure, which is the hypervisor's not-found error unless the
lookup call itself broke, and the world is unchanged: no destroy, no
undefine, the same domains. -/
theorem DeleteVM_unknown_name (w : World) (vm : VM)
    (h : ∀ d ∈ w.domains, d.name ≠ vm.Name) :
    ∃ err, DeleteVM w vm = (some (.wrap "failed to lookup domain" err), w) ∧
      (Api.lookupByName ∉ w.faults → err = .libvirt .noDomain) := by
  have hf := find_eq_none_of_forall w vm.Name h
  by_cases hl : Api.lookupByName ∈ w.faults
  · refine ⟨.libvirt .internal, ?_, fun hn => absurd hl hn⟩
    simp [DeleteVM, LookupDomainByName, fails_eq_true w _ hl]
  · refine ⟨.libvirt .noDomain, ?_, fun _ => rfl⟩
    simp [DeleteVM, LookupDomainByName, fails_eq_false w _ hl, hf]

/-- Witness of `DeleteVM_unknown_name`: deleting `web1` on a node without
domains. -/
theorem DeleteVM_unknown_name_witness :
    (∀ d ∈ demoWorld.domains, d.name ≠ demoVM.Name) ∧
    ∃ err, DeleteVM demoWorld demoVM = (some (.wrap "failed to lookup domain" err), demoWorld) ∧
      (Api.lookupByName ∉ demoWorld.faults → err = .libvirt .noDomain) :=
  ⟨by simp [demoWorld], DeleteVM_unknown_name demoWorld demoVM (by simp [demoWorld])⟩

/-! ## `GetVM` -/

/-- C7 fails on the code: on a node where domain `web1` runs with ID 1,
`GetVM` of ID 1 succeeds and fills in name and state of its local record,
yet the record it returns is the zero value: ID 0, empty name, empty state. -/
theorem GetVM_returns_zero_record :
    createdWorld.domains.map (fun d => (d.name, d.id, d.active, d.state))
      = [("web1", 1, true, 1)] ∧
    GetVM.run createdWorld { VM.zero with ID := 1 }
      = .ok (VM.zero, { VM.zero with ID := 1, Name := "web1", State := ParseState 1 }) ∧
    GetVM createdWorld { VM.zero with ID := 1 } = .ok VM.zero ∧
    VM.zero.ID = 0 ∧ VM.zero.Name = "" ∧ VM.zero.State = "" := by
  decide

/-! ## `ListVMs` -/

theorem loop_names (w : World) (hn : Api.getName ∉ w.faults) (hs : Api.getState ∉ w.faults)
    (hi : Api.getID ∉ w.faults) :
    ∀ (names : List String) (vms : List VM),
      (∀ n ∈ names, ∃ d, w.find n = some d ∧ d.active = true) →
      ∃ out, ListVMs.loop w names vms = .ok out ∧
        out.map (fun v => v.Name) = vms.map (fun v => v.Name) ++ names := by
  intro names
  induction names with
  | nil => intro vms _; exact ⟨vms, rfl, by simp⟩
  | cons n rest ih =>
    intro vms hall
    obtain ⟨d, hd, hda⟩ := hall n (List.mem_cons_self _ _)
    have hname := find_name w n d hd
    obtain ⟨out, hout, hmap⟩ :=
      ih (vms ++ [{ VM.zero with Name := d.name, State := ParseState d.state, ID := toInt d.id }])
        (fun m hm => hall m (List.mem_cons_of_mem _ hm))
    refine ⟨out, ?_, ?_⟩
    · simp only [ListVMs.loop, domainGetName, domainGetState, domainGetID,
        fails_eq_false w _ hn, fails_eq_false w _ hs, fails_eq_false w _ hi, hd, hda]
      simpa using hout
    · rw [hmap]; simp [hname]

/-- On a node whose domains are all active, `ListVMs` returns one record
per domain, with the names of the domains in order. -/
theorem ListVMs_names (w : World) (hl : Api.listAll ∉ w.faults) (hn : Api.getName ∉ w.faults)
    (hs : Api.getState ∉ w.faults) (hi : Api.getID ∉ w.faults)
    (hact : ∀ d ∈ w.domains, d.active = true) :
    ∃ out, ListVMs w = .ok out ∧
      out.map (fun v => v.Name) = w.domains.map (fun d => d.name) := by
  obtain ⟨out, hout, hmap⟩ := loop_names w hn hs hi (w.domains.map (fun d => d.name)) [] (by
    intro n hmem
    obtain ⟨d, hd, rfl⟩ := List.mem_map.mp hmem
    obtain ⟨e, he⟩ := find_of_mem w d hd
    exact ⟨e, he, hact e (find_mem w d.name e he)⟩)
  refine ⟨out, ?_, by simpa using hmap⟩
  simp [ListVMs, ListAllDomains, fails_eq_false w _ hl, hout]

/-! ## `DeleteVM` of a defined domain -/

theorem filter_map_update (n : String) (f : Dom → Dom)
    (hkeep : ∀ e, e.name ≠ n → f e = e) (hname : ∀ e, (f e).name = e.name) :
    ∀ l : List Dom, (l.map f).filter (fun e => decide (e.name ≠ n))
      = l.filter (fun e => decide (e.name ≠ n)) := by
  intro l
  induction l with
  | nil => rfl
  | cons a t ih =>
    by_cases ha : a.name = n
    · simp only [List.map_cons, List.filter, hname, ha, ne_eq, not_true_eq_false, decide_False]
      exact ih
    · simp only [List.map_cons, List.filter, hname, ha, ne_eq, not_false_eq_true, decide_True,
        hkeep a ha, ih]

theorem find_after_update (l : List Dom) (n : String) (f : Dom → Dom)
    (hname : ∀ e, (f e).name = e.name) :
    List.find? (fun d => decide (d.name = n)) (l.map f)
      = (List.find? (fun d => decide (d.name = n)) l).map f := by
  rw [List.find?_map]
  congr 2
  funext e
  simp [hname]

theorem LookupDomainByName_ok (w : World) (n : String) (d : Dom)
    (hl : Api.lookupByName ∉ w.faults) (hfind : w.find n = some d) :
    LookupDomainByName w n = .ok n := by
  simp [LookupDomainByName, fails_eq_false w _ hl, hfind, find_name w n d hfind]

theorem domainIsActive_ok (w : World) (n : String) (d : Dom)
    (ha : Api.isActive ∉ w.faults) (hfind : w.find n = some d) :
    domainIsActive w n = .ok d.active := by
  simp [domainIsActive, fails_eq_false w _ ha, hfind]

theorem stopped_name (n : String) (e : Dom) : (stopped n e).name = e.name := by
  unfold stopped; split <;> rfl

theorem domainDestroy_ok (w : World) (n : String) (d : Dom)
    (hd : Api.destroy ∉ w.faults) (hfind : w.find n = some d)
    (hact : d.active = true) (hpers : d.persistent = true) :
    domainDestroy w n =
      (none, { w with log := w.log ++ [Event.destroy n],
                      domains := w.domains.map (stopped n) }) := by
  simp [domainDestroy, fails_eq_false w _ hd, hfind, hact, hpers, World.record]

theorem domainUndefine_ok (w : World) (n : String) (d : Dom)
    (hu : Api.undefine ∉ w.faults) (hfind : w.find n = some d)
    (hact : d.active = false) (hpers : d.persistent = true) :
    domainUndefine w n =
      (none, { w with log := w.log ++ [Event.undefine n],
                      domains := w.domains.filter (fun e => decide (e.name ≠ n)) }) := by
  simp [domainUndefine, fails_eq_false w _ hu, hfind, hact, hpers, World.record]

/-- The world `DeleteVM` leaves behind when every call succeeds on a defined
domain. -/
theorem DeleteVM_defined_world (w : World) (vm : VM) (d : Dom)
    (hfind : w.find vm.Name = some d) (hpers : d.persistent = true)
    (hl : Api.lookupByName ∉ w.faults) (ha : Api.isActive ∉ w.faults)
    (hd : Api.destroy ∉ w.faults) (hu : Api.undefine ∉ w.faults) :
    DeleteVM w vm =
      (none,
        { w with
          log := w.log ++
            (if d.active then [Event.destroy vm.Name, Event.undefine vm.Name]
             else [Event.undefine vm.Name]),
          domains := w.domains.filter (fun e => decide (e.name ≠ vm.Name)) }) := by
  unfold DeleteVM
  rw [LookupDomainByName_ok w vm.Name d hl hfind]
  simp only []
  rw [domainIsActive_ok w vm.Name d ha hfind]
  simp only []
  cases hact : d.active with
  | false =>
    simp only [Bool.false_eq_true, if_false]
    rw [domainUndefine_ok w vm.Name d hu hfind hact hpers]
  | true =>
    simp only [if_true]
    rw [domainDestroy_ok w vm.Name d hd hfind hact hpers]
    simp only []
    have hfind1 : World.find
        { w with log := w.log ++ [Event.destroy vm.Name],
                 domains := w.domains.map (stopped vm.Name) } vm.Name
        = some (stopped vm.Name d) := by
      unfold World.find at hfind ⊢
      simp only []
      rw [find_after_update w.domains vm.Name (stopped vm.Name) (stopped_name vm.Name), hfind]
      rfl
    have hn := find_name w vm.Name d hfind
    rw [domainUndefine_ok
      ⟨w.fs, w.domains.map (stopped vm.Name), w.nextID, w.nextPort, w.faults,
        w.log ++ [Event.destroy vm.Name]⟩ vm.Name (stopped vm.Name d) hu hfind1
      (by simp [stopped, hn]) (by simp [stopped, hn, hpers])]
    simp only []
    rw [filter_map_update vm.Name (stopped vm.Name)
      (by intro e he; simp [stopped, he]) (stopped_name vm.Name)]
    simp

/-- What holds of `DeleteVM` on every node where the named domain is defined
and lookup, status check, destroy and undefine succeed: it returns no error;
for an active domain it calls destroy and then undefine, for an inactive one
undefine only; the domain is gone and every other domain remains; and when
every other domain is active, a following `ListVMs` lists no record of that
name and still lists every other domain. -/
theorem DeleteVM_then_ListVMs (w : World) (vm : VM) (d : Dom)
    (hfind : w.find vm.Name = some d) (hpers : d.persistent = true)
    (hl : Api.lookupByName ∉ w.faults) (ha : Api.isActive ∉ w.faults)
    (hd : Api.destroy ∉ w.faults) (hu : Api.undefine ∉ w.faults)
    (hla : Api.listAll ∉ w.faults) (hn : Api.getName ∉ w.faults)
    (hs : Api.getState ∉ w.faults) (hi : Api.getID ∉ w.faults)
    (hothers : ∀ e ∈ w.domains, e.name ≠ vm.Name → e.active = true) :
    (DeleteVM w vm).1 = none ∧
    (DeleteVM w vm).2.log = w.log ++
      (if d.active then [Event.destroy vm.Name, Event.undefine vm.Name]
       else [Event.undefine vm.Name]) ∧
    (DeleteVM w vm).2.domains = w.domains.filter (fun e => decide (e.name ≠ vm.Name)) ∧
    ∃ vms, ListVMs (DeleteVM w vm).2 = .ok vms ∧
      (∀ v ∈ vms, v.Name ≠ vm.Name) ∧
      (∀ e ∈ w.domains, e.name ≠ vm.Name → ∃ v ∈ vms, v.Name = e.name) := by
  rw [DeleteVM_defined_world w vm d hfind hpers hl ha hd hu]
  refine ⟨rfl, rfl, rfl, ?_⟩
  obtain ⟨vms, hvms, hmap⟩ := ListVMs_names
    ⟨w.fs, w.domains.filter (fun e => decide (e.name ≠ vm.Name)), w.nextID, w.nextPort, w.faults,
      w.log ++ (if d.active then [Event.destroy vm.Name, Event.undefine vm.Name]
        else [Event.undefine vm.Name])⟩ hla hn hs hi
    (by
      intro e he
      have hmem := List.mem_filter.mp he
      exact hothers e hmem.1 (by simpa using hmem.2))
  refine ⟨vms, hvms, ?_, ?_⟩
  · intro v hv
    have hmem : v.Name ∈ vms.map (fun v => v.Name) := List.mem_map.mpr ⟨v, hv, rfl⟩
    rw [hmap] at hmem
    obtain ⟨e, he, hev⟩ := List.mem_map.mp hmem
    have := (List.mem_filter.mp he).2
    rw [← hev]
    simpa using this
  · intro e he hne
    have hmem : e.name ∈ vms.map (fun v => v.Name) := by
      rw [hmap]
      exact List.mem_map.mpr ⟨e, List.mem_filter.mpr ⟨he, by simpa using hne⟩, rfl⟩
    obtain ⟨v, hv, hve⟩ := List.mem_map.mp hmem
    exact ⟨v, hv, hve⟩

/-- An instance of `DeleteVM_then_ListVMs`: with `web1` and `web2` running,
deleting `web1` leaves `web2`, which the following `ListVMs` lists. -/
theorem DeleteVM_then_ListVMs_instance :
    twoRunningWorld.domains.map (fun e => (e.name, e.active)) = [("web1", true), ("web2", true)] ∧
    (DeleteVM twoRunningWorld demoVM).1 = none ∧
    (DeleteVM twoRunningWorld demoVM).2.domains.map (fun e => e.name) = ["web2"] ∧
    ∃ vms, ListVMs (DeleteVM twoRunningWorld demoVM).2 = .ok vms ∧
      (∀ v ∈ vms, v.Name ≠ demoVM.Name) ∧
      (∀ e ∈ twoRunningWorld.domains, e.name ≠ demoVM.Name → ∃ v ∈ vms, v.Name = e.name) :=
  have t := DeleteVM_then_ListVMs twoRunningWorld demoVM web1Dom (by decide) (by decide)
    (by decide) (by decide) (by decide) (by decide) (by decide) (by decide) (by decide)
    (by decide) (by decide)
  ⟨by decide, t.1, by decide, t.2.2.2⟩

/-- C8 fails on the code: on a node where `web1` runs and `idle` is defined
and shut off, `DeleteVM` of `web1` calls destroy, then undefine, returns no
error and leaves `idle`; but the following `ListVMs`, which asks for active
and inactive domains alike, fails at the ID of the inactive `idle` and lists
nothing. -/
theorem DeleteVM_then_ListVMs_fails_on_inactive :
    mixedWorld.domains.map (fun e => (e.name, e.active, e.persistent))
      = [("web1", true, true), ("idle", false, true)] ∧
    mixedWorld.faults = [] ∧
    (DeleteVM mixedWorld demoVM).1 = none ∧
    (DeleteVM mixedWorld demoVM).2.log
      = mixedWorld.log ++ [Event.destroy "web1", Event.undefine "web1"] ∧
    (DeleteVM mixedWorld demoVM).2.domains.map (fun e => (e.name, e.active, e.persistent))
      = [("idle", false, true)] ∧
    ListVMs (DeleteVM mixedWorld demoVM).2
      = .error (.wrap "failed to get domain id" (.libvirt .operationInvalid)) := by
  decide

/-! ## `CreateVM`: what the preparation leaves alone -/

theorem ensureImage_keeps (cat : Catalog) (env : NodeEnv) (h : Helpers) (w : World) (vm : VM)
    (imgName : String) :
    (ensureImage cat env h w vm imgName).2.domains = w.domains ∧
    (ensureImage cat env h w vm imgName).2.faults = w.faults ∧
    (ensureImage cat env h w vm imgName).2.nextID = w.nextID ∧
    (ensureImage cat env h w vm imgName).2.nextPort = w.nextPort := by
  unfold ensureImage
  split
  · simp only [World.record]
    split <;> exact ⟨rfl, rfl, rfl, rfl⟩
  · exact ⟨rfl, rfl, rfl, rfl⟩

theorem prepare_keeps (cat : Catalog) (env : NodeEnv) (h : Helpers) (w : World) (vm : VM) :
    (prepare cat env h w vm).2.domains = w.domains ∧
    (prepare cat env h w vm).2.faults = w.faults ∧
    (prepare cat env h w vm).2.nextID = w.nextID ∧
    (prepare cat env h w vm).2.nextPort = w.nextPort := by
  unfold prepare
  split
  · exact ⟨rfl, rfl, rfl, rfl⟩
  · simp only []
    split
    · exact ⟨rfl, rfl, rfl, rfl⟩
    · have hk := ensureImage_keeps cat env h w vm
        (filepathJoin [env.LibVirtImageDir, (cat.image vm.Image).Img])
      split
      · rename_i heq; rw [heq] at hk; exact hk
      · rename_i heq; rw [heq] at hk
        repeat' split
        all_goals exact hk

theorem prepare_ok_inv (cat : Catalog) (env : NodeEnv) (h : Helpers) (w : World) (vm : VM) :
    ∀ x : Domain, (prepare cat env h w vm).1 = .ok x →
      ∃ flavor destImgName cloudInitFileName, cat.VMFlavors vm.Flavor = some flavor ∧
        x = buildDomainXML vm flavor destImgName cloudInitFileName env.ListenHost := by
  intro x
  unfold prepare
  split
  · intro hp; simp at hp
  · rename_i flavor hflavor
    simp only []
    split
    · intro hp; simp at hp
    · repeat' split
      all_goals
        intro hp
        first
          | (simp at hp; done)
          | (simp only [Except.ok.injEq] at hp; exact ⟨flavor, _, _, hflavor, hp.symm⟩)

theorem prepare_ok_name (cat : Catalog) (env : NodeEnv) (h : Helpers) (w : World) (vm : VM)
    (x : Domain) (hp : (prepare cat env h w vm).1 = .ok x) : x.Name = vm.Name := by
  obtain ⟨_, _, _, _, rfl⟩ := prepare_ok_inv cat env h w vm x hp
  rfl

/-! ## `CreateVM`: define, then a failing start -/

theorem xmlMarshal_ok_inv (w : World) (x y : Domain) (h : xmlMarshal w x = .ok y) : y = x := by
  unfold xmlMarshal at h
  split at h
  · simp at h
  · simpa using h.symm

theorem DomainDefineXML_ok_inv (w : World) (x : Domain) (domain : String)
    (h : (DomainDefineXML w x).1 = .ok domain) :
    domain = x.Name ∧ w.find x.Name = none ∧
    (DomainDefineXML w x).2 =
      ⟨w.fs, w.domains ++ [defined x], w.nextID, w.nextPort, w.faults,
        w.log ++ [Event.define x.Name]⟩ := by
  unfold DomainDefineXML at h ⊢
  simp only [] at h ⊢
  split at h
  · simp at h
  · rename_i hf
    simp only [hf]
    cases hfind : w.find x.Name with
    | some d => rw [hfind] at h; simp at h
    | none =>
      rw [hfind] at h
      simp only [Except.ok.injEq] at h
      exact ⟨h.symm, rfl, rfl⟩

theorem domainCreate_err_inv (w : World) (n : String) (err : Error)
    (h : (domainCreate w n).1 = some err) :
    (domainCreate w n).2 =
      ⟨w.fs, w.domains, w.nextID, w.nextPort, w.faults, w.log ++ [Event.start n]⟩ := by
  unfold domainCreate at h ⊢
  simp only [] at h ⊢
  repeat' split
  all_goals first
    | rfl
    | simp_all

/-- C3, as amended: when `CreateVM` defines the domain successfully and the
start that follows fails, `CreateVM` returns the start error and does not
undefine: the domains afterwards are those before plus the newly defined,
inactive domain, and the last calls made are the define and the start. -/
theorem CreateVM_failed_start_keeps_domain (cat : Catalog) (env : NodeEnv) (h : Helpers)
    (w : World) (vm : VM) (domainXML vmxml : Domain) (domain : String) (err : Error)
    (hprep : (prepare cat env h w vm).1 = .ok domainXML)
    (hmar : xmlMarshal (prepare cat env h w vm).2 domainXML = .ok vmxml)
    (hdef : (DomainDefineXML (prepare cat env h w vm).2 vmxml).1 = .ok domain)
    (hstart :
      (domainCreate (DomainDefineXML (prepare cat env h w vm).2 vmxml).2 domain).1 = some err) :
    (CreateVM cat env h w vm).1 = .error err ∧
    (CreateVM cat env h w vm).2.domains = w.domains ++ [defined domainXML] ∧
    (defined domainXML).name = vm.Name ∧ (defined domainXML).active = false ∧
    (defined domainXML).persistent = true ∧
    (CreateVM cat env h w vm).2.log
      = (prepare cat env h w vm).2.log ++ [Event.define vm.Name, Event.start vm.Name] := by
  have hname := prepare_ok_name cat env h w vm domainXML hprep
  have hk := prepare_keeps cat env h w vm
  rcases hp : prepare cat env h w vm with ⟨r, w1⟩
  rw [hp] at hprep hmar hdef hstart hk
  simp only at hprep hmar hdef hstart hk
  subst hprep
  have hx := xmlMarshal_ok_inv _ _ _ hmar
  subst hx
  obtain ⟨hdom, _, hw2⟩ := DomainDefineXML_ok_inv w1 vmxml domain hdef
  have hw3 := domainCreate_err_inv _ _ _ hstart
  have hC : CreateVM cat env h w vm
      = (.error err, (domainCreate (DomainDefineXML w1 vmxml).2 domain).2) := by
    unfold CreateVM launch
    rw [hp]
    simp only []
    rw [hmar]
    simp only []
    rcases hd2 : DomainDefineXML w1 vmxml with ⟨r2, w2⟩
    rw [hd2] at hdef hstart
    simp only at hdef hstart
    subst hdef
    simp only []
    rcases hc : domainCreate w2 domain with ⟨r3, w3⟩
    rw [hc] at hstart
    simp only at hstart
    subst hstart
    rfl
  rw [hC, hw3, hw2]
  obtain ⟨hkd, _, _, _⟩ := hk
  exact ⟨rfl, by simp [hkd], hname, rfl, rfl, by simp [hdom, hname]⟩

/-- Witness of `CreateVM_failed_start_keeps_domain`: creating `web1` on the
node where starting fails. -/
theorem CreateVM_failed_start_keeps_domain_witness :
    (CreateVM demoCatalog demoEnv demoHelpers startFailsWorld demoVM).1
      = .error (.libvirt .internal) ∧
    (CreateVM demoCatalog demoEnv demoHelpers startFailsWorld demoVM).2.domains
      = startFailsWorld.domains ++
        [defined (buildDomainXML demoVM ⟨512, 512, 10⟩ "/img/web1.qcow2"
          "/img/web1-cloud-init.iso" "0.0.0.0")] :=
  have t := CreateVM_failed_start_keeps_domain demoCatalog demoEnv demoHelpers
    startFailsWorld demoVM
    (buildDomainXML demoVM ⟨512, 512, 10⟩ "/img/web1.qcow2" "/img/web1-cloud-init.iso" "0.0.0.0")
    (buildDomainXML demoVM ⟨512, 512, 10⟩ "/img/web1.qcow2" "/img/web1-cloud-init.iso" "0.0.0.0")
    "web1" (.libvirt .internal)
    (by decide) (by decide) (by decide) (by decide)
  ⟨t.1, t.2.1⟩

/-- C3, as stated, fails: on a node without domains where starting fails,
`CreateVM` of `web1` returns an error, yet `web1` stays defined: the domains
afterwards are not those before, and no undefine was called. -/
theorem CreateVM_failed_start_leaves_domain :
    startFailsWorld.domains = [] ∧
    (CreateVM demoCatalog demoEnv demoHelpers startFailsWorld demoVM).1
      = .error (.libvirt .internal) ∧
    (CreateVM demoCatalog demoEnv demoHelpers startFailsWorld demoVM).2.log
      = [Event.define "web1", Event.start "web1"] ∧
    (CreateVM demoCatalog demoEnv demoHelpers startFailsWorld demoVM).2.domains.map
        (fun d => (d.name, d.active, d.persistent)) = [("web1", false, true)] := by
  decide

/-! ## `CreateVM`: the record returned on success -/

theorem xmlUnmarshal_ok_inv (w : World) (x y : Domain) (h : xmlUnmarshal w x = .ok y) :
    y = x := by
  unfold xmlUnmarshal at h
  split at h
  · simp at h
  · simpa using h.symm

theorem domainGetID_ok_inv (w : World) (n : String) (id : Nat)
    (h : domainGetID w n = .ok id) : ∃ d, w.find n = some d ∧ d.id = id := by
  unfold domainGetID at h
  split at h
  · simp at h
  · cases hf : w.find n with
    | none => rw [hf] at h; simp at h
    | some d =>
      rw [hf] at h
      simp only at h
      split at h
      · exact ⟨d, rfl, by simpa using h⟩
      · simp at h

theorem domainGetXMLDesc_ok_inv (w : World) (n : String) (x : Domain)
    (h : domainGetXMLDesc w n = .ok x) : ∃ d, w.find n = some d ∧ d.desc = x := by
  unfold domainGetXMLDesc at h
  split at h
  · simp at h
  · cases hf : w.find n with
    | none => rw [hf] at h; simp at h
    | some d => rw [hf] at h; exact ⟨d, rfl, by simpa using h⟩

theorem domainCreate_ok_inv (w : World) (n : String) (h : (domainCreate w n).1 = none) :
    (domainCreate w n).2 =
      ⟨w.fs, w.domains.map (started n w.nextID w.nextPort), w.nextID + 1, w.nextPort + 1,
        w.faults, w.log ++ [Event.start n]⟩ := by
  unfold domainCreate at h ⊢
  simp only [] at h ⊢
  repeat' split
  all_goals first
    | rfl
    | simp_all

theorem started_name (n : String) (id : Nat) (port : Int) (e : Dom) :
    (started n id port e).name = e.name := by
  unfold started; split <;> rfl

/-- What `launch` returns on success. -/
theorem launch_ok_inv (env : NodeEnv) (w : World) (vm : VM) (x : Domain) (r : VM)
    (h : (launch env w vm x).1 = .ok r) :
    r.State = vm.State ∧ r.Name = vm.Name ∧ r.Image = vm.Image ∧ r.Flavor = vm.Flavor ∧
    r.NodeHostname = env.IP ∧ r.NodePort = env.ListenPort ∧
    ∃ d port, (launch env w vm x).2.find x.Name = some d ∧ d.active = true ∧
      d.id = w.nextID ∧ r.ID = toInt d.id ∧ vncPortOf d.desc = some port ∧
      r.VNCURL = "ws://" ++ env.IP ++ ":" ++ toString port := by
  unfold launch at h ⊢
  cases hm : xmlMarshal w x with
  | error e => rw [hm] at h; simp at h
  | ok vmxml =>
    rw [hm] at h
    simp only at h ⊢
    have hx0 := xmlMarshal_ok_inv _ _ _ hm
    subst hx0
    have hdi := DomainDefineXML_ok_inv w vmxml
    rcases hd : DomainDefineXML w vmxml with ⟨r1, w1⟩
    rw [hd] at h hdi
    cases r1 with
    | error e => simp at h
    | ok domain =>
      simp only at h hdi ⊢
      obtain ⟨hdom, _, hw1⟩ := hdi domain rfl
      subst hdom
      have hci := domainCreate_ok_inv w1 vmxml.Name
      rcases hc : domainCreate w1 vmxml.Name with ⟨r2, w2⟩
      rw [hc] at h hci
      cases r2 with
      | some e => simp at h
      | none =>
        simp only at h hci ⊢
        have hw2 := hci trivial
        cases hid : domainGetID w2 vmxml.Name with
        | error e => rw [hid] at h; simp at h
        | ok id =>
          rw [hid] at h
          simp only at h ⊢
          cases hx : domainGetXMLDesc w2 vmxml.Name with
          | error e => rw [hx] at h; simp at h
          | ok vmDesc =>
            rw [hx] at h
            simp only at h ⊢
            cases hu : xmlUnmarshal w2 vmDesc with
            | error e => rw [hu] at h; simp at h
            | ok vmXML =>
              rw [hu] at h
              simp only at h ⊢
              have hx1 := xmlUnmarshal_ok_inv _ _ _ hu
              subst hx1
              cases hp : vncPortOf vmXML with
              | none => rw [hp] at h; simp at h
              | some port =>
                rw [hp] at h
                simp only [Result.ok.injEq] at h ⊢
                subst h
                obtain ⟨d, hfd, hdid⟩ := domainGetID_ok_inv _ _ _ hid
                obtain ⟨d2, hfd2, hdesc⟩ := domainGetXMLDesc_ok_inv _ _ _ hx
                rw [hfd] at hfd2
                simp only [Option.some.injEq] at hfd2
                subst hfd2
                have hfd0 := hfd
                rw [hw2] at hfd0
                unfold World.find at hfd0
                simp only [] at hfd0
                rw [find_after_update _ _ _ (started_name _ _ _)] at hfd0
                cases hf1 : List.find? (fun d => decide (d.name = vmxml.Name)) w1.domains with
                | none => rw [hf1] at hfd0; simp at hfd0
                | some d0 =>
                  rw [hf1] at hfd0
                  have hn0 : d0.name = vmxml.Name := by simpa using List.find?_some hf1
                  simp only [Option.map_some', Option.some.injEq] at hfd0
                  refine ⟨rfl, rfl, rfl, rfl, rfl, rfl, d, port, hfd, ?_, ?_, ?_, ?_, rfl⟩
                  · rw [← hfd0]; simp [started, hn0]
                  · rw [← hfd0, hw1]; simp [started, hn0]
                  · rw [hdid]
                  · rw [hdesc]; exact hp

/-- C6, as amended: whenever `CreateVM` returns no error, the returned record
carries the `State` of the request unchanged (`CreateVM` never assigns it),
the request's name, image and flavor, the node's IP and listen port, the ID
the hypervisor assigned to the now running domain, and the console URL
`"ws://" + IP + ":" + port` with the VNC port read back from that domain. -/
theorem CreateVM_ok_record (cat : Catalog) (env : NodeEnv) (h : Helpers) (w : World)
    (vm r : VM) (hok : (CreateVM cat env h w vm).1 = .ok r) :
    r.State = vm.State ∧ r.Name = vm.Name ∧ r.Image = vm.Image ∧ r.Flavor = vm.Flavor ∧
    r.NodeHostname = env.IP ∧ r.NodePort = env.ListenPort ∧
    ∃ d port, (CreateVM cat env h w vm).2.find vm.Name = some d ∧ d.active = true ∧
      d.id = w.nextID ∧ r.ID = toInt d.id ∧ vncPortOf d.desc = some port ∧
      r.VNCURL = "ws://" ++ env.IP ++ ":" ++ toString port := by
  have hk := prepare_keeps cat env h w vm
  have hname := prepare_ok_name cat env h w vm
  unfold CreateVM at hok ⊢
  rcases hp : prepare cat env h w vm with ⟨r0, w1⟩
  rw [hp] at hok hk hname
  cases r0 with
  | error e => simp at hok
  | ok x =>
    simp only at hok hk hname ⊢
    have hx := hname x rfl
    have := launch_ok_inv env w1 vm x r hok
    rw [hx, hk.2.2.1] at this
    exact this

/-- Witness of `CreateVM_ok_record`: the spec scenario, with a request that
carries the state `Paused`. -/
theorem CreateVM_ok_record_witness :
    (CreateVM demoCatalog demoEnv demoHelpers demoWorld { demoVM with State := "Paused" }).1
      = .ok { demoVM with State := "Paused", ID := 1, NodeHostname := "10.0.0.5",
                          NodePort := "6969", VNCURL := "ws://10.0.0.5:5900" } ∧
    ({ demoVM with State := "Paused", ID := 1, NodeHostname := "10.0.0.5",
                   NodePort := "6969", VNCURL := "ws://10.0.0.5:5900" } : VM).State
      = ({ demoVM with State := "Paused" } : VM).State :=
  ⟨by decide,
   (CreateVM_ok_record demoCatalog demoEnv demoHelpers demoWorld
      { demoVM with State := "Paused" }
      { demoVM with State := "Paused", ID := 1, NodeHostname := "10.0.0.5",
                    NodePort := "6969", VNCURL := "ws://10.0.0.5:5900" } (by decide)).1⟩

/-- C6, as stated, fails: `CreateVM` succeeds on a request that carries the
state `Paused` (and on one that carries none), the domain runs (raw state 1,
which `ParseState` maps to `Running`), yet the returned record has the state
of the request, not `Running`. -/
theorem CreateVM_returns_request_state :
    (CreateVM demoCatalog demoEnv demoHelpers demoWorld { demoVM with State := "Paused" }).1
      = .ok { demoVM with State := "Paused", ID := 1, NodeHostname := "10.0.0.5",
                          NodePort := "6969", VNCURL := "ws://10.0.0.5:5900" } ∧
    (CreateVM demoCatalog demoEnv demoHelpers demoWorld demoVM).1
      = .ok { demoVM with State := "", ID := 1, NodeHostname := "10.0.0.5",
                          NodePort := "6969", VNCURL := "ws://10.0.0.5:5900" } ∧
    (CreateVM demoCatalog demoEnv demoHelpers demoWorld
        { demoVM with State := "Paused" }).2.domains.map (fun d => (d.name, d.state))
      = [("web1", 1)] ∧
    ParseState 1 = "Running" ∧ "Paused" ≠ ParseState 1 ∧ "" ≠ ParseState 1 := by
  decide

/-! ## `CreateVM`: the clone step -/

/-- C4, as amended: when the per-VM disk file of the VM name already exists
(and the base image is a regular file), the clone step reports no conflict
and succeeds: `os.Create` truncates the existing file and the copy fills it
with the bytes of the base image (with nothing when the base image is that
very file); every other path is left as it was. -/
theorem cloneStep_overwrites_existing (env : NodeEnv) (fs : FS) (imgName vmName : String)
    (content old : List Nat)
    (himg : fs imgName = some (.file content))
    (hdest : fs (filepathJoin [env.LibVirtImageDir, vmName ++ ".qcow2"]) = some (.file old)) :
    (cloneStep env fs imgName vmName).1
      = .ok (filepathJoin [env.LibVirtImageDir, vmName ++ ".qcow2"]) ∧
    (cloneStep env fs imgName vmName).2 (filepathJoin [env.LibVirtImageDir, vmName ++ ".qcow2"])
      = some (.file
          (if imgName = filepathJoin [env.LibVirtImageDir, vmName ++ ".qcow2"] then []
           else content)) ∧
    ∀ q, q ≠ filepathJoin [env.LibVirtImageDir, vmName ++ ".qcow2"] →
      (cloneStep env fs imgName vmName).2 q = fs q := by
  by_cases hsame : imgName = filepathJoin [env.LibVirtImageDir, vmName ++ ".qcow2"]
  · subst hsame
    simp only [cloneStep, osOpen, himg, osCreate, ioCopy, FS.write, if_true]
    refine ⟨trivial, trivial, ?_⟩
    intro q hq
    simp only [hq, if_false]
  · have hne : ¬ (imgName = filepathJoin [env.LibVirtImageDir, vmName ++ ".qcow2"]) := hsame
    simp only [cloneStep, osOpen, himg, osCreate, hdest, ioCopy, FS.write, hne, if_false,
      if_true]
    refine ⟨trivial, trivial, ?_⟩
    intro q hq
    simp only [hq, if_false]

/-- Witness of `cloneStep_overwrites_existing`: the disk of `web1` exists
with bytes 9, 9 and ends up holding the bytes of the base image. -/
theorem cloneStep_overwrites_existing_witness :
    existingDiskFS "/img/web1.qcow2" = some (.file [9, 9]) ∧
    (cloneStep demoEnv existingDiskFS "/img/alpine.qcow2" "web1").1
      = .ok (filepathJoin [demoEnv.LibVirtImageDir, "web1" ++ ".qcow2"]) ∧
    (cloneStep demoEnv existingDiskFS "/img/alpine.qcow2" "web1").2
        (filepathJoin [demoEnv.LibVirtImageDir, "web1" ++ ".qcow2"])
      = some (.file
          (if "/img/alpine.qcow2" = filepathJoin [demoEnv.LibVirtImageDir, "web1" ++ ".qcow2"]
           then [] else [1, 2, 3])) :=
  have t := cloneStep_overwrites_existing demoEnv existingDiskFS "/img/alpine.qcow2" "web1"
    [1, 2, 3] [9, 9] (by decide) (by decide)
  ⟨by decide, t.1, t.2.1⟩

/-- C4, as stated, fails: with the disk file of `web1` already on the node
(bytes 9, 9), `CreateVM` of `web1` reports no conflict, it succeeds, and the
file now holds the bytes of the base image. -/
theorem CreateVM_overwrites_existing_disk :
    filepathJoin [demoEnv.LibVirtImageDir, demoVM.Name ++ ".qcow2"] = "/img/web1.qcow2" ∧
    existingDiskWorld.fs "/img/web1.qcow2" = some (.file [9, 9]) ∧
    (cloneStep demoEnv existingDiskWorld.fs "/img/alpine.qcow2" "web1").1
      = .ok "/img/web1.qcow2" ∧
    (cloneStep demoEnv existingDiskWorld.fs "/img/alpine.qcow2" "web1").2 "/img/web1.qcow2"
      = some (.file [1, 2, 3]) ∧
    (CreateVM demoCatalog demoEnv demoHelpers existingDiskWorld demoVM).1
      = .ok { demoVM with ID := 1, NodeHostname := "10.0.0.5", NodePort := "6969",
                          VNCURL := "ws://10.0.0.5:5900" } ∧
    (CreateVM demoCatalog demoEnv demoHelpers existingDiskWorld demoVM).2.fs "/img/web1.qcow2"
      = some (.file [1, 2, 3]) := by
  decide

/-! ## `CreateVM`: an image the catalog does not have -/

/-- C5 fails on the code: with the image directory `/img` and an image name
that is not in the catalog, the joined path is `/img`, not the empty string,
so the `image not found` return is skipped. Where `/img` exists, no download
is attempted, the per-VM disk file is created, and the error is that of
copying from the directory; where it does not exist, a download of the empty
URL is attempted. -/
theorem CreateVM_unknown_image_not_rejected :
    demoCatalog.VMImages unknownImageVM.Image = none ∧
    (demoCatalog.VMFlavors unknownImageVM.Flavor).isSome = true ∧
    filepathJoin [demoEnv.LibVirtImageDir, (demoCatalog.image unknownImageVM.Image).Img]
      = "/img" ∧
    demoWorld.fs "/img/web1.qcow2" = none ∧
    (CreateVM demoCatalog demoEnv demoHelpers demoWorld unknownImageVM).1
      = .error (.path "write" "/img/web1.qcow2" .EISDIR) ∧
    (CreateVM demoCatalog demoEnv demoHelpers demoWorld unknownImageVM).2.fs "/img/web1.qcow2"
      = some (.file []) ∧
    (CreateVM demoCatalog demoEnv demoHelpers demoWorld unknownImageVM).2.log = [] ∧
    (CreateVM demoCatalog demoEnv demoHelpers bareWorld unknownImageVM).1
      = .error (.path "open" "/img" .ENOENT) ∧
    (CreateVM demoCatalog demoEnv demoHelpers bareWorld unknownImageVM).2.log
      = [Event.download "" "/img"] := by
  decide

end Simplecloud
